import Mathlib

/-!
Verification development for the `lark` façade module (`src/lark/lark.py`).

The module defines `LarkOptions.__init__` (option validation) and
`Lark.__init__` / `Lark.lex` / `Lark.parse` (construction pipeline and the
caller-facing parse API).  The collaborators it calls (`load_grammar`, the
`Lexer` class, `ParseTreeBuilder`, the engines of `ENGINE_DICT`) live in
modules that are not part of the repository snapshot; they are modelled as
abstract external functions, except where a claim is decided by their
behaviour, in which case a definition modelled from the specification text
is supplied and marked as such.

Python dictionaries are embedded as association lists of (key, value)
pairs; `dict(d)` (copying) and in-place `pop` are made observable through a
small store of dictionaries, so that the absence of mutation of the
caller's dictionary is a provable frame property rather than an artefact of
a pure embedding.
-/

namespace LarkSpec

/-- A Python value as it can appear in an options dictionary: `None`,
booleans, strings, integers, or an opaque object (transformer instance,
tree class, post-lexer, ...) identified by a tag.  Opaque objects are
truthy, mirroring CPython's default `__bool__`. -/
inductive Value where
  | vNone : Value
  | vBool : Bool → Value
  | vStr : String → Value
  | vInt : Int → Value
  | vObj : String → Value
deriving DecidableEq, Repr

/-- Python truthiness (`bool(x)` / `if x:`) for the embedded values. -/
def truthy : Value → Bool
  | .vNone => false
  | .vBool b => b
  | .vStr s => !(s == "")
  | .vInt n => !(n == 0)
  | .vObj _ => true

/-- The exceptions `LarkOptions.__init__` and `Lark.__init__` can raise:
`AssertionError` from `assert self.parser in ENGINE_DICT`, the
`ValueError` for a transformer combined with the Earley engine, the
`ValueError` listing unknown option keys (the list of keys replaces the
formatted `o.keys()` text), `NotImplementedError`, and the errors the
external lexer/engine can surface through `parse`. -/
inductive PyError where
  | assertionError : PyError
  | valueErrorEarleyTransformer : PyError
  | valueErrorUnknownOptions : List String → PyError
  | notImplementedError : String → PyError
  | attributeError : PyError
  | unexpectedCharacter : Nat → PyError
  | unexpectedToken : Value → PyError
deriving DecidableEq, Repr

/-- Does the error carry the list of unknown option keys? -/
def PyError.isUnknownOptions : PyError → Bool
  | .valueErrorUnknownOptions _ => true
  | _ => false

/-- Is the error a `NotImplementedError`? -/
def PyError.isNotImplemented : PyError → Bool
  | .notImplementedError _ => true
  | _ => false

/-- A Python dictionary, embedded as an association list (Python dicts are
insertion-ordered; keys are unique in any dict produced by Python). -/
abbrev Dict : Type := List (String × Value)

/-- Key lookup: value of the first binding of `k`, if any. -/
def Dict.get? (d : Dict) (k : String) : Option Value :=
  match d with
  | [] => none
  | (k', v) :: t => if k' = k then some v else Dict.get? t k

/-- Remove every binding of `k` (on a dict with unique keys this is the
removal `pop` performs). -/
def Dict.remove (d : Dict) (k : String) : Dict :=
  List.filter (fun p => !(p.1 == k)) d

/-- `d.pop(k, default)`: the value (or the default) together with the dict
after removal of the key. -/
def Dict.pop (d : Dict) (k : String) (dflt : Value) : Value × Dict :=
  ((Dict.get? d k).getD dflt, Dict.remove d k)

/-- The keys of a dict, in order. -/
def Dict.keys (d : Dict) : List String :=
  List.map Prod.fst d

/-- Is the dict empty (Python `if o:` is false exactly on an empty dict)? -/
def Dict.isEmpty (d : Dict) : Bool :=
  match d with
  | [] => true
  | _ :: _ => false

theorem Dict.get?_remove_ne (d : Dict) (k k' : String) (h : ¬ k = k') :
    Dict.get? (Dict.remove d k) k' = Dict.get? d k' := by
  induction d with
  | nil => rfl
  | cons p t ih =>
    simp only [Dict.remove, List.filter_cons] at *
    by_cases h1 : p.1 = k
    · have h2 : ¬ p.1 = k' := fun hc => h (h1 ▸ hc)
      simp [Dict.get?, h1, h2, ih, h]
    · by_cases h2 : p.1 = k'
      · have h3 : ¬ k' = k := fun hc => h hc.symm
        simp [Dict.get?, h1, h2, h3]
      · simp [Dict.get?, h1, h2, ih]

/-- Removing a list of keys in order (the cumulative effect of the
successive `pop` calls on the local copy `o`). -/
def Dict.removeAll (d : Dict) (ks : List String) : Dict :=
  ks.foldl Dict.remove d

theorem Dict.removeAll_eq_filter (ks : List String) (d : Dict) :
    Dict.removeAll d ks = List.filter (fun p => !(ks.contains p.1)) d := by
  induction ks generalizing d with
  | nil => simp [Dict.removeAll]
  | cons k ks ih =>
    have step : Dict.removeAll d (k :: ks) = Dict.removeAll (Dict.remove d k) ks := rfl
    rw [step, ih, Dict.remove, List.filter_filter]
    apply List.filter_congr
    intro p _
    by_cases hpk : p.1 = k <;> simp [List.contains_cons, hpk]

/-- The store of dictionary objects: index `r` is the dict at reference
`r`; allocation appends. -/
abbrev Store : Type := List Dict

/-- Dereference a dict in the store (out-of-range reads give the empty
dict; well-formed executions never perform them). -/
def Store.get (s : Store) (r : Nat) : Dict :=
  List.getD s r []

/-- Overwrite the dict at a reference. -/
def Store.set (s : Store) (r : Nat) (d : Dict) : Store :=
  List.set s r d

/-- In-place `pop` on the dict object at reference `r`. -/
def popStore (s : Store) (r : Nat) (k : String) (dflt : Value) : Value × Store :=
  let pr := Dict.pop (Store.get s r) k dflt
  (pr.1, Store.set s r pr.2)

theorem Store.get_snoc (s : Store) (x : Dict) :
    Store.get (s ++ [x]) s.length = x := by
  induction s with
  | nil => rfl
  | cons h t ih => simp [Store.get] at ih ⊢

theorem Store.set_snoc (s : Store) (x d : Dict) :
    Store.set (s ++ [x]) s.length d = s ++ [d] := by
  induction s with
  | nil => rfl
  | cons h t ih => simp [Store.set] at ih ⊢

theorem popStore_snoc (s : Store) (x : Dict) (k : String) (dflt : Value) :
    popStore (s ++ [x]) s.length k dflt
      = ((Dict.pop x k dflt).1, s ++ [(Dict.pop x k dflt).2]) := by
  simp [popStore, Store.get_snoc, Store.set_snoc]

theorem Store.get_append_left (s : Store) (x : Dict) (r : Nat)
    (h : r < s.length) : Store.get (s ++ [x]) r = Store.get s r := by
  induction s generalizing r with
  | nil => simp at h
  | cons hd t ih =>
    cases r with
    | zero => rfl
    | succ n =>
      simp only [List.length_cons] at h
      exact ih n (by omega)

/-- The recognized option keys, in the order `LarkOptions.__init__` pops
them: `debug`, `only_lex`, `keep_all_tokens`, `tree_class`,
`cache_grammar`, `postlex`, `parser`, `transformer`, `start`. -/
def recognizedKeys : List String :=
  ["debug", "only_lex", "keep_all_tokens", "tree_class", "cache_grammar",
   "postlex", "parser", "transformer", "start"]

/-- Modelled from the spec: the keys of `ENGINE_DICT`
(`parser_frontends.py` is not in the repository snapshot).  The spec names
exactly the two strategies "lalr" and "earley" (§2 Engine Selector, §4.5).
Python's `in` on a dict tests key membership, so a non-string value is
never a member. -/
def engineMember : Value → Bool
  | .vStr s => s == "earley" || s == "lalr"
  | _ => false

/-- The validated options record: the attributes `LarkOptions.__init__`
stores on `self`. -/
structure LarkOptions where
  debug : Bool
  only_lex : Bool
  keep_all_tokens : Bool
  tree_class : Value
  cache_grammar : Value
  postlex : Value
  parser : Value
  transformer : Value
  start : Value
deriving DecidableEq, Repr

/-- `LarkOptions.__init__(options_dict)` with the dictionary heap made
explicit: the caller's dict lives at reference `r` in store `s`; the first
step `o = dict(options_dict)` allocates a copy at a fresh reference, and
every `o.pop(...)` mutates only that copy.  Returns the raised exception
or the validated options, together with the final store. -/
def larkOptionsInitH (s : Store) (r : Nat) : Except PyError LarkOptions × Store :=
  let oRef := List.length s
  let s1 := s ++ [Store.get s r]
  let p1 := popStore s1 oRef "debug" (.vBool false)
  let debug := truthy p1.1
  let p2 := popStore p1.2 oRef "only_lex" (.vBool false)
  let only_lex := truthy p2.1
  let p3 := popStore p2.2 oRef "keep_all_tokens" (.vBool false)
  let keep_all_tokens := truthy p3.1
  let p4 := popStore p3.2 oRef "tree_class" (.vObj "Tree")
  let tree_class := p4.1
  let p5 := popStore p4.2 oRef "cache_grammar" (.vBool false)
  let cache_grammar := p5.1
  let p6 := popStore p5.2 oRef "postlex" .vNone
  let postlex := p6.1
  let p7 := popStore p6.2 oRef "parser" (.vStr "earley")
  let parser := p7.1
  let p8 := popStore p7.2 oRef "transformer" .vNone
  let transformer := p8.1
  let p9 := popStore p8.2 oRef "start" (.vStr "start")
  let start := p9.1
  let sEnd := p9.2
  if engineMember parser = false then
    (.error .assertionError, sEnd)
  else if parser == .vStr "earley" && truthy transformer then
    (.error .valueErrorEarleyTransformer, sEnd)
  else if keep_all_tokens then
    (.error (.notImplementedError "Not implemented yet!"), sEnd)
  else if (Store.get sEnd oRef).isEmpty = false then
    (.error (.valueErrorUnknownOptions (Dict.keys (Store.get sEnd oRef))), sEnd)
  else
    (.ok ⟨debug, only_lex, keep_all_tokens, tree_class, cache_grammar,
          postlex, parser, transformer, start⟩, sEnd)

/-- `LarkOptions(options_dict)` as a pure function of the dictionary's
contents: run the heap-explicit initializer on a one-dict store. -/
def larkOptionsInit (d : Dict) : Except PyError LarkOptions :=
  (larkOptionsInitH [d] 0).1

theorem Dict.get?_removeAll (d : Dict) (ks : List String) (k' : String)
    (h : ¬ k' ∈ ks) :
    Dict.get? (Dict.removeAll d ks) k' = Dict.get? d k' := by
  induction ks generalizing d with
  | nil => rfl
  | cons k ks ih =>
    have hk : ¬ k = k' := fun hc => h (by simp [hc])
    have hrest : ¬ k' ∈ ks := fun hm => h (List.mem_cons_of_mem _ hm)
    rw [show Dict.removeAll d (k :: ks) = Dict.removeAll (Dict.remove d k) ks
          from rfl,
        ih _ hrest, Dict.get?_remove_ne _ _ _ hk]

/-- The effective `parser` option: the popped value, or the default
`'earley'`. -/
def parserOpt (d : Dict) : Value :=
  (Dict.get? d "parser").getD (.vStr "earley")

/-- The effective `transformer` option (default `None`). -/
def transformerOpt (d : Dict) : Value :=
  (Dict.get? d "transformer").getD .vNone

/-- The effective `keep_all_tokens` option after `bool(...)`. -/
def keepOpt (d : Dict) : Bool :=
  truthy ((Dict.get? d "keep_all_tokens").getD (.vBool false))

/-- The bindings of the dict whose key is not a recognized option name:
what is left in the local copy `o` after all the pops. -/
def unknownOpts (d : Dict) : Dict :=
  List.filter (fun p => !(recognizedKeys.contains p.1)) d

/-- Closed form of the heap-explicit initializer: the result depends only
on the contents of the caller's dict, and the final store is the original
store extended with the drained copy. -/
theorem Store.get_cons_zero (d : Dict) (t : Store) :
    Store.get (d :: t) 0 = d := rfl

set_option maxHeartbeats 1000000 in
theorem larkOptionsInitH_closed (s : Store) (r : Nat) :
    larkOptionsInitH s r
      = (larkOptionsInit (Store.get s r),
         s ++ [Dict.removeAll (Store.get s r) recognizedKeys]) := by
  simp only [larkOptionsInitH, larkOptionsInit, Store.get_cons_zero]
  simp only [popStore_snoc, Store.get_snoc]
  simp only [Dict.removeAll, recognizedKeys, List.foldl_cons, List.foldl_nil]
  split_ifs <;> rfl

set_option maxHeartbeats 1000000 in
theorem larkOptionsInit_eq (d : Dict) :
    larkOptionsInit d =
      (if engineMember (parserOpt d) = false then .error .assertionError
       else if parserOpt d == .vStr "earley" && truthy (transformerOpt d) then
         .error .valueErrorEarleyTransformer
       else if keepOpt d then .error (.notImplementedError "Not implemented yet!")
       else if (unknownOpts d).isEmpty = false then
         .error (.valueErrorUnknownOptions (Dict.keys (unknownOpts d)))
       else
         .ok ⟨truthy ((Dict.get? d "debug").getD (.vBool false)),
              truthy ((Dict.get? d "only_lex").getD (.vBool false)),
              keepOpt d,
              (Dict.get? d "tree_class").getD (.vObj "Tree"),
              (Dict.get? d "cache_grammar").getD (.vBool false),
              (Dict.get? d "postlex").getD .vNone,
              parserOpt d, transformerOpt d,
              (Dict.get? d "start").getD (.vStr "start")⟩) := by
  have h2 := Dict.get?_removeAll d ["debug"] "only_lex" (by decide)
  have h3 := Dict.get?_removeAll d ["debug", "only_lex"] "keep_all_tokens"
    (by decide)
  have h4 := Dict.get?_removeAll d ["debug", "only_lex", "keep_all_tokens"]
    "tree_class" (by decide)
  have h5 := Dict.get?_removeAll d
    ["debug", "only_lex", "keep_all_tokens", "tree_class"] "cache_grammar"
    (by decide)
  have h6 := Dict.get?_removeAll d
    ["debug", "only_lex", "keep_all_tokens", "tree_class", "cache_grammar"]
    "postlex" (by decide)
  have h7 := Dict.get?_removeAll d
    ["debug", "only_lex", "keep_all_tokens", "tree_class", "cache_grammar",
     "postlex"] "parser" (by decide)
  have h8 := Dict.get?_removeAll d
    ["debug", "only_lex", "keep_all_tokens", "tree_class", "cache_grammar",
     "postlex", "parser"] "transformer" (by decide)
  have h9 := Dict.get?_removeAll d
    ["debug", "only_lex", "keep_all_tokens", "tree_class", "cache_grammar",
     "postlex", "parser", "transformer"] "start" (by decide)
  have hwall : Dict.removeAll d recognizedKeys = unknownOpts d :=
    Dict.removeAll_eq_filter _ _
  simp only [Dict.removeAll, List.foldl_cons, List.foldl_nil] at h2 h3 h4 h5 h6 h7 h8 h9
  simp only [Dict.removeAll, recognizedKeys, List.foldl_cons, List.foldl_nil] at hwall
  simp only [larkOptionsInit, larkOptionsInitH, Store.get_cons_zero]
  simp only [popStore_snoc, Store.get_snoc]
  simp only [Dict.pop]
  rw [parserOpt, transformerOpt, keepOpt]
  rw [h2, h3, h4, h5, h6, h7, h8, h9, hwall]
  split_ifs <;> rfl

/-- One entry of the token-specification list `load_grammar` returns:
`(name, value, flags)` — `Lark._build_lexer` iterates over such triples. -/
structure TokenSpec where
  name : String
  value : String
  flags : List String
deriving DecidableEq, Repr

/-- The constructor arguments of the external `Lexer` class as
`Lark._build_lexer` supplies them: the full `(name, pattern)` list and the
list of names to ignore (`Lexer(tokens, {}, ignore=ignore_tokens)`). -/
structure LexerCfg where
  tokens : List (String × String)
  ignore : List String
deriving DecidableEq, Repr

/-- `Lark._build_lexer`: one pass over `self.tokens`, appending every
`(name, value)` pair to the pattern list and the names flagged `ignore`
to the ignore list. -/
def buildLexer (specs : List TokenSpec) : LexerCfg :=
  let r := specs.foldl
    (fun (acc : List String × List (String × String)) t =>
      (if t.flags.contains "ignore" then acc.1 ++ [t.name] else acc.1,
       acc.2 ++ [(t.name, t.value)]))
    ([], [])
  ⟨r.2, r.1⟩

theorem buildLexer_foldl (specs : List TokenSpec)
    (acc : List String × List (String × String)) :
    specs.foldl
      (fun (acc : List String × List (String × String)) t =>
        (if t.flags.contains "ignore" then acc.1 ++ [t.name] else acc.1,
         acc.2 ++ [(t.name, t.value)]))
      acc
    = (acc.1 ++ (specs.filter (fun t => t.flags.contains "ignore")).map TokenSpec.name,
       acc.2 ++ specs.map (fun t => (t.name, t.value))) := by
  induction specs generalizing acc with
  | nil => simp
  | cons t ts ih =>
    simp only [List.foldl_cons, ih, List.filter_cons, List.map_cons]
    by_cases hf : "ignore" ∈ t.flags <;>
      simp [hf, List.append_assoc]

theorem buildLexer_eq (specs : List TokenSpec) :
    buildLexer specs
      = ⟨specs.map (fun t => (t.name, t.value)),
         (specs.filter (fun t => t.flags.contains "ignore")).map TokenSpec.name⟩ := by
  simp only [buildLexer]
  rw [buildLexer_foldl]
  simp

/-- The externally visible calls `Lark.__init__` makes to collaborators
outside this module: grammar compilation, the engine dispatch
`ENGINE_DICT[self.options.parser]()`, and the engine's
`build_parser(...)`. -/
inductive Event where
  | loadGrammarCall : String → Event
  | engineDispatch : String → Event
  | engineBuildParserCall : String → Event
deriving DecidableEq, Repr

/-- Is the event the engine dispatch `ENGINE_DICT[...]()`? -/
def Event.isDispatch : Event → Bool
  | .engineDispatch _ => true
  | _ => false

/-- The collaborators of `Lark` that live outside this module
(`load_grammar`, the `Lexer` behaviour, `ParseTreeBuilder`, the engines).
They are kept abstract: a structure of arbitrary total functions; opaque
payloads (rules, callbacks, trees, tokens) are `Value`s.  Per spec §5 they
are synchronous deterministic functions without shared mutable state. -/
structure Externals where
  loadGrammar : String → List TokenSpec × Value
  lexerLex : LexerCfg → String → Except PyError (List Value)
  postlexProcess : Value → List Value → List Value
  createTreeBuilder : Value → Value → Value → Value × Value
  engineBuildParser : String → Value → Value → Value → Value
  parserParse : Value → List Value → Except PyError Value

/-- The attributes a successfully constructed `Lark` instance holds:
`self.options`, `self.tokens`, `self.rules`, `self.lexer`, and — unless
`only_lex` — the dispatched engine name and the built `self.parser`. -/
structure LarkState where
  options : LarkOptions
  tokens : List TokenSpec
  rules : Value
  lexer : LexerCfg
  parserEngine : Option String
  parserBuilt : Option Value

/-- The string carried by a `Value.vStr` (the engine name under the
dispatch; construction guarantees `options.parser` is such a value). -/
def valueStr : Value → String
  | .vStr s => s
  | _ => ""

/-- `Lark.__init__(grammar, **options)` for a string grammar, returning
the trace of external calls made together with the raised exception or
the constructed state.  Statement order follows the source:
`LarkOptions(options)` first, then the `cache_grammar` check, then
`load_grammar`, `_build_lexer`, and — unless `only_lex` — the engine
dispatch, `ParseTreeBuilder(...).create_tree_builder(...)` and
`build_parser`.  (The `cache_file` computation and the file-object drain
have no observable effect for a string grammar and are omitted.) -/
def larkInit (E : Externals) (grammar : String) (options : Dict) :
    List Event × Except PyError LarkState :=
  match larkOptionsInit options with
  | .error e => ([], .error e)
  | .ok opts =>
    if truthy opts.cache_grammar then
      ([], .error (.notImplementedError "Not available yet"))
    else
      let gr := E.loadGrammar grammar
      let lexer := buildLexer gr.1
      if opts.only_lex then
        ([.loadGrammarCall grammar],
         .ok ⟨opts, gr.1, gr.2, lexer, none, none⟩)
      else
        let name := valueStr opts.parser
        let tb := E.createTreeBuilder opts.tree_class gr.2 opts.transformer
        let parser := E.engineBuildParser name tb.1 tb.2 opts.start
        ([.loadGrammarCall grammar, .engineDispatch name,
          .engineBuildParserCall name],
         .ok ⟨opts, gr.1, gr.2, lexer, some name, some parser⟩)

/-- `Lark.lex(text)`: run the lexer, then the post-lexer if one was
configured. -/
def lexFn (E : Externals) (st : LarkState) (text : String) :
    Except PyError (List Value) := do
  let stream ← E.lexerLex st.lexer text
  if truthy st.options.postlex then
    pure (E.postlexProcess st.options.postlex stream)
  else
    pure stream

/-- `Lark.parse(text)`: `assert not self.options.only_lex`, then
`self.parser.parse(list(self.lex(text)))`; the engine's result (value or
exception) is returned unmodified. -/
def parseFn (E : Externals) (st : LarkState) (text : String) :
    Except PyError Value :=
  if st.options.only_lex then .error .assertionError
  else
    match st.parserBuilt with
    | none => .error .attributeError
    | some p => do
      let l ← lexFn E st text
      E.parserParse p l

/-- A call of `Lark.parse` together with the instance state after the
call: the method assigns no attribute, so the state is returned
unchanged. -/
def parseCall (E : Externals) (st : LarkState) (text : String) :
    Except PyError Value × LarkState :=
  (parseFn E st text, st)

/-- Modelled from the spec: a compiled token pattern of the external
`Lexer` (`lexer.py` is not in the repository snapshot).  A matcher is
abstract: given the text (as characters) and an offset it reports the
length matched there, or none.  This covers literal and regex patterns
without committing to a pattern syntax; a reported zero-length match is
treated as no match, since the scan must consume input to progress. -/
abbrev Matcher : Type := List Char → Nat → Option Nat

/-- Modelled from the spec: a runtime token — symbolic type, matched text,
start offset, line and column (§3 Data Model). -/
structure LexToken where
  ttype : String
  text : List Char
  startOffset : Nat
  line : Nat
  col : Nat
deriving DecidableEq, Repr

/-- Modelled from the spec: the match-selection policy (§4.1) — evaluate
all patterns at the offset, keep the greatest matched length, and on a
length tie keep the pattern declared earlier in the list (a strictly
greater length is needed to displace the current best). -/
def bestMatch (ms : List (String × Matcher)) (text : List Char) (pos : Nat) :
    Option (String × Nat) :=
  ms.foldl
    (fun acc m =>
      match m.2 text pos with
      | none => acc
      | some len =>
        if len = 0 then acc
        else
          match acc with
          | none => some (m.1, len)
          | some best => if best.2 < len then some (m.1, len) else acc)
    none

theorem bestMatch_go_pos (ms : List (String × Matcher)) (text : List Char)
    (pos : Nat) (acc : Option (String × Nat))
    (hacc : ∀ nm len, acc = some (nm, len) → 0 < len) :
    ∀ nm len,
      ms.foldl
        (fun acc m =>
          match m.2 text pos with
          | none => acc
          | some len =>
            if len = 0 then acc
            else
              match acc with
              | none => some (m.1, len)
              | some best => if best.2 < len then some (m.1, len) else acc)
        acc = some (nm, len) → 0 < len := by
  induction ms generalizing acc with
  | nil => exact hacc
  | cons m ms ih =>
    intro nm len h
    rw [List.foldl_cons] at h
    refine ih _ ?_ nm len h
    intro nm' len' hstep
    split at hstep
    · exact hacc _ _ hstep
    · split at hstep
      · exact hacc _ _ hstep
      · rename_i l hl
        split at hstep
        · simp only [Option.some.injEq, Prod.mk.injEq] at hstep
          obtain ⟨-, h2⟩ := hstep
          omega
        · split at hstep
          · simp only [Option.some.injEq, Prod.mk.injEq] at hstep
            obtain ⟨-, h2⟩ := hstep
            omega
          · exact hacc _ _ hstep

theorem bestMatch_pos (ms : List (String × Matcher)) (text : List Char)
    (pos : Nat) (nm : String) (len : Nat)
    (h : bestMatch ms text pos = some (nm, len)) : 0 < len :=
  bestMatch_go_pos ms text pos none (by intro _ _ hc; cases hc) nm len h

/-- Modelled from the spec: line/column tracking while consuming a matched
substring — a newline advances the line and resets the column (§4.1:
offsets, line and column are tracked incrementally, including across
newlines). -/
def advanceLC (s : List Char) (lc : Nat × Nat) : Nat × Nat :=
  s.foldl (fun lc ch => if ch = '\n' then (lc.1 + 1, 0) else (lc.1, lc.2 + 1)) lc

/-- Modelled from the spec: the scanning loop of `Lexer.scan` (§4.1).  At
each offset the best match is selected; if none exists the scan fails with
`UnexpectedCharacter` at that offset; a token whose name is in the ignore
list is matched and consumed but not yielded. -/
def scanAux (ms : List (String × Matcher)) (ignore : List String)
    (text : List Char) (pos line col : Nat) :
    Except PyError (List LexToken) :=
  if hlt : pos < text.length then
    match hbm : bestMatch ms text pos with
    | none => .error (.unexpectedCharacter pos)
    | some best =>
      have hpos : 0 < best.2 := bestMatch_pos ms text pos best.1 best.2 hbm
      let s := (text.drop pos).take best.2
      let lc := advanceLC s (line, col)
      match scanAux ms ignore text (pos + best.2) lc.1 lc.2 with
      | .error e => .error e
      | .ok ts =>
        .ok (if ignore.contains best.1 then ts
             else ⟨best.1, s, pos, line, col⟩ :: ts)
  else
    .ok []
termination_by text.length - pos
decreasing_by omega

/-- Modelled from the spec: `Lexer.scan` — scan from offset 0, line 1,
column 0. -/
def scan (ms : List (String × Matcher)) (ignore : List String)
    (text : List Char) : Except PyError (List LexToken) :=
  scanAux ms ignore text 0 1 0

set_option maxHeartbeats 1000000 in
theorem scanAux_ignore (ms : List (String × Matcher)) (ign : List String)
    (text : List Char) :
    ∀ n pos line col, text.length - pos ≤ n →
      scanAux ms ign text pos line col
        = Except.map (List.filter (fun t => !(ign.contains t.ttype)))
            (scanAux ms [] text pos line col) := by
  intro n
  induction n with
  | zero =>
    intro pos line col hle
    have hnlt : ¬ pos < text.length := by omega
    rw [scanAux, scanAux]
    simp [hnlt, Except.map]
  | succ n ihn =>
    intro pos line col hle
    rw [scanAux, scanAux]
    by_cases hlt : pos < text.length
    · simp only [dif_pos hlt]
      cases hbm : bestMatch ms text pos with
      | none => simp [Except.map]
      | some best =>
        have hpos : 0 < best.2 := bestMatch_pos ms text pos best.1 best.2 hbm
        simp only
        rw [ihn (pos + best.2) _ _ (by omega)]
        cases hrec : scanAux ms [] text (pos + best.2)
            (advanceLC ((text.drop pos).take best.2) (line, col)).1
            (advanceLC ((text.drop pos).take best.2) (line, col)).2 with
        | error e => simp [Except.map]
        | ok ts =>
          simp only [Except.map]
          by_cases hig : ign.contains best.1 = true <;>
            simp [hig, List.filter_cons]
    · simp [hlt, Except.map]

/-- Did the call raise the unknown-options `ValueError`? -/
def raisedUnknownOptions : Except PyError LarkOptions → Bool
  | .error e => e.isUnknownOptions
  | .ok _ => false

/-- Did the call raise a `NotImplementedError`? -/
def raisedNotImplemented : Except PyError LarkOptions → Bool
  | .error e => e.isNotImplemented
  | .ok _ => false

/-- Did construction succeed? -/
def initOk : Except PyError LarkState → Bool
  | .ok _ => true
  | .error _ => false

/-- A concrete instantiation of the external collaborators, used to
evaluate the construction pipeline on closed inputs. -/
def E0 : Externals where
  loadGrammar := fun _ => ([], .vNone)
  lexerLex := fun _ _ => .ok []
  postlexProcess := fun _ ts => ts
  createTreeBuilder := fun _ _ _ => (.vNone, .vNone)
  engineBuildParser := fun _ _ _ _ => .vObj "parser"
  parserParse := fun _ _ => .ok .vNone

/-- The options record produced by an empty options dictionary: every
option at its default. -/
def opts0 : LarkOptions :=
  ⟨false, false, false, .vObj "Tree", .vBool false, .vNone, .vStr "earley",
   .vNone, .vStr "start"⟩

/-- The event trace of a default construction under `E0`. -/
def ev0 : List Event :=
  [.loadGrammarCall "g", .engineDispatch "earley",
   .engineBuildParserCall "earley"]

/-- The state of a default construction under `E0`. -/
def st0 : LarkState :=
  ⟨opts0, [], .vNone, ⟨[], []⟩, some "earley", some (.vObj "parser")⟩

theorem larkOptionsInit_ok_inversion (d : Dict) (opts : LarkOptions)
    (h : larkOptionsInit d = .ok opts) :
    engineMember opts.parser = true
    ∧ opts.parser = parserOpt d
    ∧ opts.transformer = transformerOpt d
    ∧ opts.keep_all_tokens = false
    ∧ ((opts.parser == Value.vStr "earley") && truthy opts.transformer) = false
    ∧ (unknownOpts d).isEmpty = true
    ∧ opts.only_lex = truthy ((Dict.get? d "only_lex").getD (.vBool false))
    ∧ opts.cache_grammar = (Dict.get? d "cache_grammar").getD (.vBool false)
    ∧ opts.tree_class = (Dict.get? d "tree_class").getD (.vObj "Tree")
    ∧ opts.start = (Dict.get? d "start").getD (.vStr "start") := by
  rw [larkOptionsInit_eq] at h
  split_ifs at h with h1 h2 h3 h4
  simp only [Except.ok.injEq] at h
  subst h
  refine ⟨by simpa using h1, rfl, rfl, by simpa [keepOpt] using h3, ?_,
          by simpa using h4, rfl, rfl, rfl, rfl⟩
  simpa using h2

theorem larkInit_ok_inversion (E : Externals) (g : String) (d : Dict)
    (evs : List Event) (st : LarkState)
    (hinit : larkInit E g d = (evs, .ok st)) :
    ∃ opts, larkOptionsInit d = .ok opts ∧ st.options = opts
      ∧ truthy opts.cache_grammar = false
      ∧ st.tokens = (E.loadGrammar g).1
      ∧ st.rules = (E.loadGrammar g).2
      ∧ st.lexer = buildLexer (E.loadGrammar g).1
      ∧ ((opts.only_lex = true ∧ evs = [.loadGrammarCall g]
            ∧ st.parserEngine = none ∧ st.parserBuilt = none)
         ∨ (opts.only_lex = false
            ∧ evs = [.loadGrammarCall g,
                     .engineDispatch (valueStr opts.parser),
                     .engineBuildParserCall (valueStr opts.parser)]
            ∧ st.parserEngine = some (valueStr opts.parser)
            ∧ st.parserBuilt = some (E.engineBuildParser (valueStr opts.parser)
                (E.createTreeBuilder opts.tree_class (E.loadGrammar g).2
                  opts.transformer).1
                (E.createTreeBuilder opts.tree_class (E.loadGrammar g).2
                  opts.transformer).2
                opts.start))) := by
  unfold larkInit at hinit
  cases hopt : larkOptionsInit d with
  | error e => rw [hopt] at hinit; simp at hinit
  | ok opts =>
    rw [hopt] at hinit
    refine ⟨opts, rfl, ?_⟩
    by_cases hc : truthy opts.cache_grammar = true
    · simp [hc] at hinit
    · simp only [hc, Bool.not_eq_true, Bool.false_eq_true, if_false] at hinit
      by_cases hol : opts.only_lex = true
      · rw [if_pos hol] at hinit
        simp only [Prod.mk.injEq, Except.ok.injEq] at hinit
        obtain ⟨hev, hst⟩ := hinit
        subst hst
        exact ⟨rfl, by revert hc; cases truthy opts.cache_grammar <;> simp,
               rfl, rfl, rfl, Or.inl ⟨hol, hev.symm, rfl, rfl⟩⟩
      · rw [if_neg hol] at hinit
        simp only [Prod.mk.injEq, Except.ok.injEq] at hinit
        obtain ⟨hev, hst⟩ := hinit
        subst hst
        exact ⟨rfl, by revert hc; cases truthy opts.cache_grammar <;> simp,
               rfl, rfl, rfl,
               Or.inr ⟨by revert hol; cases opts.only_lex <;> simp,
                       hev.symm, rfl, rfl⟩⟩

theorem unknownOpts_isEmpty_false (d : Dict) (k : String)
    (hk : k ∈ Dict.keys d) (hr : recognizedKeys.contains k = false) :
    (unknownOpts d).isEmpty = false := by
  obtain ⟨p, hpmem, hpk⟩ := List.mem_map.mp hk
  have hpu : p ∈ unknownOpts d := by
    refine List.mem_filter.mpr ⟨hpmem, ?_⟩
    rw [hpk, hr]
    rfl
  cases hu : unknownOpts d with
  | nil => rw [hu] at hpu; cases hpu
  | cons a t => rfl

/-- C1: for every options dictionary that supplies a (truthy) transformer
and selects the `earley` engine, construction (`LarkOptions.__init__`,
reached first from `Lark.__init__`) raises the transformer-with-Earley
`ValueError` at construction time — `Lark.__init__` returns no instance
and makes no external call, so no parse is ever attempted. -/
theorem C1_transform_with_earley_rejected (d : Dict) (t : Value)
    (hp : Dict.get? d "parser" = some (.vStr "earley"))
    (ht : Dict.get? d "transformer" = some t)
    (htr : truthy t = true) :
    larkOptionsInit d = .error .valueErrorEarleyTransformer
    ∧ ∀ (E : Externals) (g : String),
        larkInit E g d = ([], .error .valueErrorEarleyTransformer) := by
  have h1 : larkOptionsInit d = .error .valueErrorEarleyTransformer := by
    rw [larkOptionsInit_eq]
    simp [parserOpt, transformerOpt, hp, ht, htr, engineMember]
  exact ⟨h1, fun E g => by simp [larkInit, h1]⟩

/-- C1 witness: the concrete dictionary `{parser: 'earley', transformer:
<object>}` is rejected with the transformer-with-Earley error and an empty
call trace. -/
theorem C1_witness :
    larkInit E0 "g"
        [("parser", Value.vStr "earley"), ("transformer", Value.vObj "T")]
      = ([], .error .valueErrorEarleyTransformer) :=
  (C1_transform_with_earley_rejected
    [("parser", Value.vStr "earley"), ("transformer", Value.vObj "T")]
    (Value.vObj "T") rfl rfl rfl).2 E0 "g"

/-- C2: for every options dictionary with an illegal combination
(transformer with the effective Earley engine, unregistered engine name,
or an unrecognized option key), `Lark.__init__` fails with an empty
external-call trace: `load_grammar` and the engine's build routine are
never invoked. -/
theorem C2_illegal_options_rejected_before_compilation
    (E : Externals) (g : String) (d : Dict)
    (hbad : (∃ v, Dict.get? d "parser" = some v ∧ engineMember v = false)
      ∨ (parserOpt d = .vStr "earley" ∧ truthy (transformerOpt d) = true)
      ∨ (∃ k, k ∈ Dict.keys d ∧ recognizedKeys.contains k = false)) :
    ∃ e, larkInit E g d = ([], .error e) := by
  have herr : ∃ e, larkOptionsInit d = .error e := by
    rcases hbad with ⟨v, hv, hm⟩ | ⟨hp, ht⟩ | ⟨k, hk, hr⟩
    · refine ⟨.assertionError, ?_⟩
      rw [larkOptionsInit_eq]
      simp [parserOpt, hv, hm]
    · rw [larkOptionsInit_eq]
      by_cases h1 : engineMember (parserOpt d) = false
      · exact ⟨_, by rw [if_pos h1]⟩
      · refine ⟨.valueErrorEarleyTransformer, ?_⟩
        rw [if_neg h1, if_pos (by simp [hp, ht])]
    · have hne := unknownOpts_isEmpty_false d k hk hr
      rw [larkOptionsInit_eq]
      split_ifs <;>
        first
          | exact ⟨_, rfl⟩
          | exact absurd hne (by assumption)
  obtain ⟨e, he⟩ := herr
  exact ⟨e, by simp [larkInit, he]⟩

/-- C2 witness: the unregistered engine name `'nope'` is rejected with an
empty external-call trace. -/
theorem C2_witness :
    ∃ e, larkInit E0 "g" [("parser", Value.vStr "nope")] = ([], .error e) :=
  C2_illegal_options_rejected_before_compilation E0 "g" _
    (Or.inl ⟨Value.vStr "nope", rfl, rfl⟩)

/-- C3: for every successfully constructed parser with `only_lex` false
and every input text, `Lark.parse(text)` returns exactly the engine's
`parse` applied to the token sequence `Lark.lex(text)` produced, with the
engine's result passed back unmodified. -/
theorem C3_parse_chains_lex_into_engine (E : Externals) (g : String)
    (d : Dict) (evs : List Event) (st : LarkState) (text : String)
    (toks : List Value)
    (hinit : larkInit E g d = (evs, .ok st))
    (hol : st.options.only_lex = false)
    (hlex : lexFn E st text = .ok toks) :
    ∃ p, st.parserBuilt = some p
      ∧ parseFn E st text = E.parserParse p toks := by
  obtain ⟨opts, -, hsto, -, -, -, -, hcase⟩ :=
    larkInit_ok_inversion E g d evs st hinit
  rcases hcase with ⟨holt, -, -, -⟩ | ⟨-, -, -, hpb⟩
  · rw [hsto, holt] at hol
    simp at hol
  · refine ⟨_, hpb, ?_⟩
    simp only [parseFn, hol, Bool.false_eq_true, if_false, hpb, hlex]
    rfl

/-- C3 witness: the default construction under `E0` parses `"x"` by
passing the lexed (empty) token list to the engine parser. -/
theorem C3_witness :
    ∃ p, st0.parserBuilt = some p
      ∧ parseFn E0 st0 "x" = E0.parserParse p [] :=
  C3_parse_chains_lex_into_engine E0 "g" [] ev0 st0 "x" [] rfl rfl rfl

/-- C4: `Lark._build_lexer` hands the Lexer every `(name, pattern)` pair —
the ignored ones included — and exactly the names whose flag set contains
`ignore` as the ignore list; and in the spec-modelled scan, the ignore
list only filters which tokens are yielded: scanning with an ignore set
equals scanning with none followed by dropping the ignored token types, so
ignored categories are matched and consume input but are not yielded. -/
theorem C4_lexer_patterns_and_ignore_set :
    (∀ specs : List TokenSpec,
       buildLexer specs
         = ⟨specs.map (fun t => (t.name, t.value)),
            (specs.filter (fun t => t.flags.contains "ignore")).map
              TokenSpec.name⟩)
    ∧ (∀ (E : Externals) (g : String) (d : Dict) (evs : List Event)
         (st : LarkState), larkInit E g d = (evs, .ok st) →
         st.lexer = buildLexer (E.loadGrammar g).1)
    ∧ (∀ (ms : List (String × Matcher)) (ign : List String)
         (text : List Char),
         scan ms ign text
           = Except.map (List.filter (fun t => !(ign.contains t.ttype)))
               (scan ms [] text)) := by
  refine ⟨buildLexer_eq, ?_, ?_⟩
  · intro E g d evs st hinit
    obtain ⟨opts, -, -, -, -, -, hlex, -⟩ :=
      larkInit_ok_inversion E g d evs st hinit
    exact hlex
  · intro ms ign text
    simpa [scan] using
      scanAux_ignore ms ign text text.length 0 1 0 (by omega)

/-- C4 witness: under `E0` the constructed state's lexer is exactly
`_build_lexer` of the loaded token list. -/
theorem C4_witness :
    st0.lexer = buildLexer ((E0.loadGrammar "g").1) :=
  C4_lexer_patterns_and_ignore_set.2.1 E0 "g" [] ev0 st0 rfl

/-- C5 counterexample: a dictionary with an unknown key and an
unregistered engine name is rejected by the `assert` (an `AssertionError`
carrying nothing), not by the unknown-options `ValueError`, so the raised
error does not identify the unknown keys — the unknown-options check runs
last. -/
theorem C5_counterexample :
    larkOptionsInit [("bogus", Value.vInt 1), ("parser", Value.vStr "foo")]
        = .error .assertionError
      ∧ raisedUnknownOptions
          (larkOptionsInit
            [("bogus", Value.vInt 1), ("parser", Value.vStr "foo")])
        = false :=
  ⟨rfl, rfl⟩

/-- C5 (amended): for every options dictionary containing an unrecognized
key, construction raises an error at construction time; when no
earlier-checked illegal combination is present (registered engine name, no
transformer-with-Earley conflict, `keep_all_tokens` falsy), the error is
the unknown-options `ValueError` and it carries exactly the unrecognized
keys, in dictionary order. -/
theorem C5_unknown_option_rejected (d : Dict) (k : String)
    (hk : k ∈ Dict.keys d) (hr : recognizedKeys.contains k = false) :
    (∃ e, larkOptionsInit d = .error e)
    ∧ (engineMember (parserOpt d) = true →
       ((parserOpt d == Value.vStr "earley") && truthy (transformerOpt d))
           = false →
       keepOpt d = false →
       larkOptionsInit d
         = .error (.valueErrorUnknownOptions (Dict.keys (unknownOpts d)))) := by
  have hne := unknownOpts_isEmpty_false d k hk hr
  constructor
  · rw [larkOptionsInit_eq]
    split_ifs <;>
      first
        | exact ⟨_, rfl⟩
        | exact absurd hne (by assumption)
  · intro h1 h2 h3
    rw [larkOptionsInit_eq, if_neg (by simp [h1]), if_neg (by simp [h2]),
        if_neg (by simp [h3]), if_pos hne]

/-- C5 witness: `{bogus: 1}` with otherwise-default options raises the
unknown-options error naming `bogus`. -/
theorem C5_witness :
    larkOptionsInit [("bogus", Value.vInt 1)]
      = .error (.valueErrorUnknownOptions
          (Dict.keys (unknownOpts [("bogus", Value.vInt 1)]))) :=
  (C5_unknown_option_rejected [("bogus", Value.vInt 1)] "bogus"
    (by decide) rfl).2 rfl rfl rfl

/-- C6 counterexample: with `only_lex` set, construction under the
registered name `'lalr'` succeeds yet performs no engine dispatch at all,
so a registered name does not always dispatch to an engine build. -/
theorem C6_counterexample :
    initOk (larkInit E0 "g"
        [("parser", Value.vStr "lalr"), ("only_lex", Value.vBool true)]).2
        = true
      ∧ List.countP (fun e => Event.isDispatch e)
          (larkInit E0 "g"
            [("parser", Value.vStr "lalr"),
             ("only_lex", Value.vBool true)]).1
        = 0 :=
  ⟨rfl, rfl⟩

/-- C6 (amended): an engine name not registered in the engine mapping is
rejected with the `assert`'s error at construction time before any
external call; and whenever construction succeeds with `only_lex` false,
the trace contains exactly one engine dispatch, to the engine named by the
`parser` option, followed by exactly that engine's build call — dispatch
happens once, at construction. -/
theorem C6_engine_dispatch (E : Externals) (g : String) (d : Dict) :
    (∀ v, Dict.get? d "parser" = some v → engineMember v = false →
       larkInit E g d = ([], .error .assertionError))
    ∧ (∀ (evs : List Event) (st : LarkState),
       larkInit E g d = (evs, .ok st) → st.options.only_lex = false →
       ∃ name, st.options.parser = Value.vStr name
         ∧ engineMember (Value.vStr name) = true
         ∧ evs = [.loadGrammarCall g, .engineDispatch name,
                  .engineBuildParserCall name]) := by
  constructor
  · intro v hv hm
    have h1 : larkOptionsInit d = .error .assertionError := by
      rw [larkOptionsInit_eq]
      simp [parserOpt, hv, hm]
    simp [larkInit, h1]
  · intro evs st hinit hol
    obtain ⟨opts, hopt, hsto, -, -, -, -, hcase⟩ :=
      larkInit_ok_inversion E g d evs st hinit
    obtain ⟨hmem, -⟩ := larkOptionsInit_ok_inversion d opts hopt
    rcases hcase with ⟨holt, -, -, -⟩ | ⟨-, hev, -, -⟩
    · rw [hsto, holt] at hol
      simp at hol
    · cases hvp : opts.parser with
      | vNone => rw [hvp] at hmem; simp [engineMember] at hmem
      | vBool b => rw [hvp] at hmem; simp [engineMember] at hmem
      | vInt n => rw [hvp] at hmem; simp [engineMember] at hmem
      | vObj o => rw [hvp] at hmem; simp [engineMember] at hmem
      | vStr s =>
        refine ⟨s, ?_, ?_, ?_⟩
        · rw [hsto]
          exact hvp
        · rw [← hvp]
          exact hmem
        · rw [hev, hvp]
          rfl

/-- C6 witness: an unregistered name is rejected with an empty trace, and
the default construction's trace dispatches once to `earley`. -/
theorem C6_witness :
    larkInit E0 "g" [("parser", Value.vStr "foo")]
        = ([], .error .assertionError)
      ∧ ∃ name, st0.options.parser = Value.vStr name
          ∧ engineMember (Value.vStr name) = true
          ∧ ev0 = [.loadGrammarCall "g", .engineDispatch name,
                   .engineBuildParserCall name] :=
  ⟨(C6_engine_dispatch E0 "g" [("parser", Value.vStr "foo")]).1 _ rfl rfl,
   (C6_engine_dispatch E0 "g" []).2 ev0 st0 rfl rfl⟩

/-- C7 counterexample: `keep_all_tokens: True` together with an
unregistered engine name raises the `assert`'s error, not the
unsupported-feature `NotImplementedError` — the keep-policy check runs
after the engine-name check. -/
theorem C7_counterexample :
    larkOptionsInit
        [("keep_all_tokens", Value.vBool true), ("parser", Value.vStr "foo")]
        = .error .assertionError
      ∧ raisedNotImplemented
          (larkOptionsInit
            [("keep_all_tokens", Value.vBool true),
             ("parser", Value.vStr "foo")])
        = false :=
  ⟨rfl, rfl⟩

/-- C7 (amended): for every options dictionary requesting the keep policy
(truthy `keep_all_tokens`), construction always fails — so no parser is
ever built with keep semantics, and every successfully constructed options
record has `keep_all_tokens` false; the error raised is the
unsupported-feature `NotImplementedError` whenever the engine name is
registered and no transformer-with-Earley conflict precedes the check. -/
theorem C7_keep_policy_unsupported :
    (∀ d : Dict, keepOpt d = true →
       (∃ e, larkOptionsInit d = .error e)
       ∧ (engineMember (parserOpt d) = true →
          ((parserOpt d == Value.vStr "earley") && truthy (transformerOpt d))
              = false →
          larkOptionsInit d
            = .error (.notImplementedError "Not implemented yet!")))
    ∧ (∀ (d : Dict) (opts : LarkOptions),
       larkOptionsInit d = .ok opts → opts.keep_all_tokens = false) := by
  constructor
  · intro d hk
    constructor
    · rw [larkOptionsInit_eq]
      split_ifs <;>
        first
          | exact ⟨_, rfl⟩
          | exact absurd hk (by assumption)
    · intro h1 h2
      rw [larkOptionsInit_eq, if_neg (by simp [h1]), if_neg (by simp [h2]),
          if_pos hk]
  · intro d opts hok
    exact (larkOptionsInit_ok_inversion d opts hok).2.2.2.1

/-- C7 witness: `{keep_all_tokens: True}` with otherwise-default options
raises the `NotImplementedError`. -/
theorem C7_witness :
    larkOptionsInit [("keep_all_tokens", Value.vBool true)]
      = .error (.notImplementedError "Not implemented yet!") :=
  ((C7_keep_policy_unsupported).1 [("keep_all_tokens", Value.vBool true)]
    rfl).2 rfl rfl

/-- C8: parsing is deterministic and stateless at this module's level: a
call of `Lark.parse` leaves the instance state unchanged, and a second
call on the same input returns the identical result — in particular a
failed parse fails with the identical error on every call.  The external
engines are pure functions of their inputs, per spec §5's
single-threaded, shared-nothing execution model. -/
theorem C8_parse_deterministic (E : Externals) (st : LarkState)
    (text : String) :
    (parseCall E st text).2 = st
    ∧ (parseCall E (parseCall E st text).2 text).1
      = (parseCall E st text).1 :=
  ⟨rfl, rfl⟩

/-- C9: an options dictionary that supplies a (truthy) transformer but
omits the `parser` key is rejected — the engine defaults to `earley` — and
any accepted configuration with a truthy transformer necessarily selected
`lalr` explicitly. -/
theorem C9_transformer_requires_explicit_lalr :
    (∀ (d : Dict) (t : Value),
       Dict.get? d "parser" = none →
       Dict.get? d "transformer" = some t → truthy t = true →
       larkOptionsInit d = .error .valueErrorEarleyTransformer)
    ∧ (∀ (d : Dict) (opts : LarkOptions),
       larkOptionsInit d = .ok opts → truthy opts.transformer = true →
       Dict.get? d "parser" = some (Value.vStr "lalr")) := by
  constructor
  · intro d t hp ht htr
    rw [larkOptionsInit_eq]
    simp [parserOpt, transformerOpt, hp, ht, htr, engineMember]
  · intro d opts hok htr
    obtain ⟨hmem, hpar, htra, -, hcon, -⟩ :=
      larkOptionsInit_ok_inversion d opts hok
    have hne : (opts.parser == Value.vStr "earley") = false := by
      cases hbe : (opts.parser == Value.vStr "earley") with
      | false => rfl
      | true => rw [hbe, htr] at hcon; simp at hcon
    have hlal : opts.parser = Value.vStr "lalr" := by
      cases hvp : opts.parser with
      | vNone => rw [hvp] at hmem; simp [engineMember] at hmem
      | vBool b => rw [hvp] at hmem; simp [engineMember] at hmem
      | vInt n => rw [hvp] at hmem; simp [engineMember] at hmem
      | vObj o => rw [hvp] at hmem; simp [engineMember] at hmem
      | vStr s =>
        rw [hvp] at hmem hne
        simp [engineMember] at hmem
        simp at hne
        rcases hmem with he | hl
        · exact absurd he hne
        · rw [hl]
    rw [hpar] at hlal
    unfold parserOpt at hlal
    cases hg : Dict.get? d "parser" with
    | none => rw [hg] at hlal; simp at hlal
    | some v =>
      rw [hg] at hlal
      simp at hlal
      rw [hlal]

/-- C9 witness: `{transformer: <object>}` without a `parser` key is
rejected, and the accepted `{parser: 'lalr', transformer: <object>}`
configuration names `lalr` explicitly. -/
theorem C9_witness :
    larkOptionsInit [("transformer", Value.vObj "T")]
        = .error .valueErrorEarleyTransformer
      ∧ Dict.get?
          [("parser", Value.vStr "lalr"), ("transformer", Value.vObj "T")]
          "parser" = some (Value.vStr "lalr") :=
  ⟨C9_transformer_requires_explicit_lalr.1 [("transformer", Value.vObj "T")]
     (Value.vObj "T") rfl rfl rfl,
   C9_transformer_requires_explicit_lalr.2
     [("parser", Value.vStr "lalr"), ("transformer", Value.vObj "T")]
     ⟨false, false, false, .vObj "Tree", .vBool false, .vNone,
      .vStr "lalr", .vObj "T", .vStr "start"⟩ rfl rfl⟩

/-- C10: `LarkOptions.__init__` never mutates the caller's options
dictionary: the dict at the caller's reference holds the same key-value
pairs after the call as before (validation pops operate on the copy
`o = dict(options_dict)`), and the returned result depends only on the
dict's contents. -/
theorem C10_options_dict_not_mutated (s : Store) (r : Nat)
    (h : r < s.length) :
    Store.get ((larkOptionsInitH s r).2) r = Store.get s r
    ∧ (larkOptionsInitH s r).1 = larkOptionsInit (Store.get s r) := by
  rw [larkOptionsInitH_closed]
  exact ⟨Store.get_append_left s _ r h, rfl⟩

/-- C10 witness: a concrete one-dict store is unchanged at the caller's
reference by the heap-explicit initializer. -/
theorem C10_witness :
    Store.get ((larkOptionsInitH [[("parser", Value.vStr "lalr")]] 0).2) 0
        = Store.get [[("parser", Value.vStr "lalr")]] 0
      ∧ (larkOptionsInitH [[("parser", Value.vStr "lalr")]] 0).1
        = larkOptionsInit (Store.get [[("parser", Value.vStr "lalr")]] 0) :=
  C10_options_dict_not_mutated [[("parser", Value.vStr "lalr")]] 0
    (by decide)
